import Mathlib

/-!
Shallow embedding of the vestaboard repository's grid/encoding model and
orchestration operations, with theorems settling the frozen claims.

Source files embedded here:
- src/vestaboard/models.py   (Row, Board, Device, Characters)
- src/vestaboard/utils.py    (convert_to_character_code, convert_from_character_code)
- src/transform_functions.py (convertToCharacterCode, padBoard)
- src/installables/spotify.py (SpotifyInstallable.generate_board)
- src/installables/sports/mlb/app.py (play-description word wrap)
- src/orchestrator.py        (Orchestrator.set_active_installable)
-/

/-- Alignment literal of `Row.align` in src/vestaboard/models.py
(`Literal["left", "center", "right", "none"]`). -/
inductive Align where
  | left
  | center
  | right
  | none
deriving DecidableEq, Repr

/-- `Row` from src/vestaboard/models.py: index, declared length (inherited from
`Board.columns`), alignment, and the list of character codes (`line`). -/
structure Row where
  index : Nat
  length : Nat
  align : Align
  line : List Int
deriving DecidableEq, Repr

/-- `Board` from src/vestaboard/models.py: declared row count, column count,
the list of Rows (`message`) and an optional duration. -/
structure Board where
  rows : Nat
  columns : Nat
  message : List Row
  duration : Option Nat
deriving DecidableEq, Repr

/-- `Device` from src/vestaboard/models.py: physical dimensions, the stored
last-known board (`active_board`), and the active-installable tag. -/
structure Device where
  rows : Nat
  columns : Nat
  active_board : Option Board
  active_installable : String
deriving DecidableEq, Repr

/-- A Python string at the token level, embedded as its character list (the
Lean `String` functions `toUpper`, `trim`, `splitOn` do not reduce in the
kernel, so tokens are carried as `List Char` throughout). -/
abbrev PyStr := List Char

/-- The `Characters.code` mapping of src/vestaboard/models.py, as an
association list from symbol to character code (codes are the `int` values of
the string entries in the source). -/
def charCodePairs : List (PyStr × Int) :=
  [(" ".toList, 0), ("A".toList, 1), ("B".toList, 2), ("C".toList, 3),
   ("D".toList, 4), ("E".toList, 5), ("F".toList, 6), ("G".toList, 7),
   ("H".toList, 8), ("I".toList, 9), ("J".toList, 10), ("K".toList, 11),
   ("L".toList, 12), ("M".toList, 13), ("N".toList, 14), ("O".toList, 15),
   ("P".toList, 16), ("Q".toList, 17), ("R".toList, 18), ("S".toList, 19),
   ("T".toList, 20), ("U".toList, 21), ("V".toList, 22), ("W".toList, 23),
   ("X".toList, 24), ("Y".toList, 25), ("Z".toList, 26), ("1".toList, 27),
   ("2".toList, 28), ("3".toList, 29), ("4".toList, 30), ("5".toList, 31),
   ("6".toList, 32), ("7".toList, 33), ("8".toList, 34), ("9".toList, 35),
   ("0".toList, 36), ("!".toList, 37), ("@".toList, 38), ("#".toList, 39),
   ("$".toList, 40), ("(".toList, 41), (")".toList, 42), ("-".toList, 44),
   ("+".toList, 46), ("&".toList, 47), ("=".toList, 48), (";".toList, 49),
   (":".toList, 50), ("'".toList, 52), ("\"".toList, 53), ("%".toList, 54),
   (",".toList, 55), (".".toList, 56), ("/".toList, 59), ("?".toList, 60),
   ("•".toList, 62), ("RED".toList, 63), ("ORANGE".toList, 64),
   ("YELLOW".toList, 65), ("GREEN".toList, 66), ("BLUE".toList, 67),
   ("PURPLE".toList, 68), ("WHITE".toList, 69), ("BLACK".toList, 70),
   ("FILLED".toList, 71)]

/-- The color-name keys of `Characters.code` (the list tested against in
src/vestaboard/utils.py `convert_from_character_code`). -/
def colorNames : List PyStr :=
  ["RED".toList, "ORANGE".toList, "YELLOW".toList, "GREEN".toList,
   "BLUE".toList, "PURPLE".toList, "WHITE".toList, "BLACK".toList,
   "FILLED".toList]

/-- Python `str.upper()` on a token: case-fold every character. -/
def pyUpper (v : PyStr) : PyStr := v.map Char.toUpper

/-- Python `str.strip()` on a token: drop leading and trailing whitespace. -/
def pyStrip (v : PyStr) : PyStr :=
  ((v.dropWhile Char.isWhitespace).reverse.dropWhile Char.isWhitespace).reverse

/-- One iteration of the token loop in src/vestaboard/utils.py
`convert_to_character_code`: empty/whitespace-only tokens
(`if not v or v.strip() == ''`) become 0, otherwise the case-folded token is
looked up and a `KeyError` becomes 0. -/
def encodeToken (v : PyStr) : Int :=
  if v = [] ∨ pyStrip v = [] then 0
  else
    match charCodePairs.lookup (pyUpper v) with
    | some c => c
    | none => 0

/-- `convert_to_character_code` from src/vestaboard/utils.py: the loop
accumulates one code per input token into `line`. -/
def convert_to_character_code (input : List PyStr) : List Int :=
  input.foldl (fun line v => line ++ [encodeToken v]) []

/-- The reverse mapping `{int(v): k for k, v in characters.code.items()}` built
in src/vestaboard/utils.py `convert_from_character_code` (codes are unique in
the table, so first-match lookup coincides with the Python dict). -/
def codeToChar (code : Int) : Option PyStr :=
  (charCodePairs.map (fun p => (p.2, p.1))).lookup code

/-- One iteration of the code loop in src/vestaboard/utils.py
`convert_from_character_code`: a known code yields its symbol, color symbols
are replaced by the block placeholder, an unknown code yields a space. -/
def decodeCode (code : Int) : PyStr :=
  match codeToChar code with
  | some ch => if ch ∈ colorNames then "█".toList else ch
  | none => " ".toList

/-- `convert_from_character_code` from src/vestaboard/utils.py. -/
def convert_from_character_code (codes : List Int) : List PyStr :=
  codes.foldl (fun result code => result ++ [decodeCode code]) []

/-- The `CHARACTERS` table of src/transform_functions.py. It matches
`Characters.code` except that the bullet key is the mojibake string
`'â€¢'` in that file. -/
def CHARACTERS : List (PyStr × Int) :=
  (charCodePairs.filter (fun p => p.1 ≠ "•".toList)) ++ [("â€¢".toList, 62)]

/-- `convertToCharacterCode` from src/transform_functions.py: a successful
lookup of the case-folded token appends its code; a `KeyError` prints a
message and `continue`s, appending nothing. -/
def convertToCharacterCode (input : List PyStr) : List Int :=
  input.foldl
    (fun row v =>
      match CHARACTERS.lookup (pyUpper v) with
      | some c => row ++ [c]
      | none => row)
    []

/-- The body of one iteration of the `while` loop in
src/vestaboard/models.py `Row.pad_line`: right inserts a leading blank,
center appends a blank when the current length is odd and inserts a leading
one when even, left appends a trailing blank, and the `none` arm is `pass`
(the list is untouched). -/
def padLineStep (align : Align) (line : List Int) : List Int :=
  match align with
  | .right => 0 :: line
  | .center => if line.length % 2 = 1 then line ++ [0] else 0 :: line
  | .left => line ++ [0]
  | .none => line

/-- Fuelled semantics of the `while len(self.line) < self.length` loop of
`Row.pad_line` (src/vestaboard/models.py). `some` is the list the loop
terminates with; `none` means the loop is still running when the fuel runs
out, so `(∀ n, padLineFuel a L n line = none)` states non-termination. -/
def padLineFuel (align : Align) (length : Nat) : Nat → List Int → Option (List Int)
  | 0, line => if line.length < length then none else some line
  | n + 1, line =>
      if line.length < length then padLineFuel align length n (padLineStep align line)
      else some line

/-- `Row.pad_line` from src/vestaboard/models.py, run with fuel `length`
(enough for every terminating execution, since each productive step closes a
deficit that is at most `length`). -/
def pad_line (align : Align) (length : Nat) (line : List Int) : Option (List Int) :=
  padLineFuel align length length line

/-- `Row.pad_line` applied to a whole Row, keeping the Row's other fields. -/
def Row.padded (r : Row) : Option Row :=
  (pad_line r.align r.length r.line).map (fun l => { r with line := l })

/-- `Board.pad_message` from src/vestaboard/models.py: the `while
len(self.message) <= self.rows` loop appends a blank Row (index
`len(message)`) when the current row count is odd and inserts a blank Row
(index 0) at the top when it is even. Each iteration grows the list, so the
loop terminates once the length exceeds `rows`. -/
def pad_message (rows columns : Nat) (message : List Row) : List Row :=
  if message.length ≤ rows then
    if message.length % 2 = 1 then
      pad_message rows columns
        (message ++ [⟨message.length, columns, .left, List.replicate columns 0⟩])
    else
      pad_message rows columns (⟨0, columns, .left, List.replicate columns 0⟩ :: message)
  else message
termination_by rows + 1 - message.length
decreasing_by
  all_goals simp_all
  all_goals omega

/-- `Board.pad_message` on the Board record (the source mutates
`self.message` in place and returns it). -/
def Board.pad_message_board (b : Board) : Board :=
  { b with message := pad_message b.rows b.columns b.message }

/-- `padBoard` from src/transform_functions.py: the same
`while len(board) <= ROWS` loop over a bare 2D code list, with
`ROWS = 6` and `COLUMNS = 22`. -/
def padBoard (board : List (List Int)) : List (List Int) :=
  if board.length ≤ 6 then
    if board.length % 2 = 1 then padBoard (board ++ [List.replicate 22 0])
    else padBoard (List.replicate 22 0 :: board)
  else board
termination_by 7 - board.length
decreasing_by
  all_goals simp_all
  all_goals omega

/-- `Device.create_board` from src/vestaboard/models.py: stamps the device's
dimensions onto a new Board and sets every given Row's declared length to the
device's column count. -/
def Device.create_board (d : Device) (message : List Row) (duration : Option Nat) : Board :=
  { rows := d.rows
    columns := d.columns
    message := message.map (fun r => { r with length := d.columns })
    duration := duration }

/-- `Device.create_row` from src/vestaboard/models.py: builds a Row with the
device's column width and immediately applies `pad_line`. `none` models the
call never returning (`pad_line` looping forever). -/
def Device.create_row (d : Device) (index : Nat) (line : List Int) (align : Align) :
    Option Row :=
  (pad_line align d.columns line).map (fun l => ⟨index, d.columns, align, l⟩)

/-- The dimension stamping at the top of `Device.update_message`
(src/vestaboard/models.py lines 189-195): the board inherits the device's
rows/columns and every Row's length becomes the device's column count. -/
def stampBoard (d : Device) (b : Board) : Board :=
  { b with
    rows := d.rows
    columns := d.columns
    message := b.message.map (fun r => { r with length := d.columns }) }

/-- The wire payload built inside `Device.update_message`
(src/vestaboard/models.py lines 206-220): take the first 6 rows, truncate or
blank-pad each row's codes to 22, then blank-pad the row list itself to
exactly 6 rows. -/
def serializeBoard (b : Board) : List (List Int) :=
  let rows_to_send := b.message.take 6
  let message_data := rows_to_send.map (fun r =>
    let row_data := r.line.take 22
    row_data ++ List.replicate (22 - row_data.length) 0)
  message_data ++ List.replicate (6 - message_data.length) (List.replicate 22 0)

/-- `Device.update_message` from src/vestaboard/models.py, with the transport
modelled as a function `send` from the JSON payload to the HTTP status code.
The result pairs the device state after the call with the call's outcome
(Python raises on every failure path; the raised message is the `Except`
error). A missing API key raises before any send; a non-200 status raises
after the send; only a 200 response assigns `active_board`. -/
def Device.update_message (d : Device) (new_board : Board) (api_key : Option String)
    (send : List (List Int) → Nat) : Device × Except String Unit :=
  let nb := stampBoard d new_board
  match api_key with
  | none => (d, .error "VESTABOARD_API_KEY environment variable not set")
  | some _ =>
      let status := send (serializeBoard nb)
      if status = 200 then ({ d with active_board := some nb }, .ok ())
      else (d, .error ("Error updating board: " ++ toString status))

/-- One entry of the remote `layout` array as distinguished by
`Device.get_board` (src/vestaboard/models.py lines 321-348): either a list of
integer codes (a JSON row, or a JSON-string row that parsed), or a malformed
entry (an unparsable string or a non-list), which the code replaces with
`[]` before padding. -/
inductive RowData where
  | cells (xs : List Int)
  | malformed
deriving DecidableEq, Repr

/-- The codes a `RowData` contributes before length coercion. -/
def RowData.toCells : RowData → List Int
  | .cells xs => xs
  | .malformed => []

/-- The remote payload shapes `Device.get_board` distinguishes on a 200
response (src/vestaboard/models.py lines 276-413), with the JSON decoding
abstracted to already-parsed values: `currentMessage: null`; a
`currentMessage` dict whose `layout` resolved to a row list (an unparsable
or non-list `layout` is the empty list); or a response without
`currentMessage`, which is parsed as a direct Board (`none` when
`Board.model_validate` fails). -/
inductive GetPayload where
  | msgNull
  | msgLayout (layout : List RowData)
  | direct (parsed : Option Board)
deriving Repr

/-- The transport outcome of the GET in `Device.get_board`: a 200 response
with a payload, or any transport-level error (non-200 status, connection
failure — everything that raises inside the `try`). -/
inductive GetResp where
  | success (payload : GetPayload)
  | failure (message : String)
deriving Repr

/-- The all-blank Board `get_board` builds for an absent or unparsable
message (`self.rows` left-aligned blank Rows of the device's width). -/
def blankBoard (d : Device) : Board :=
  { rows := d.rows
    columns := d.columns
    message := (List.range d.rows).map
      (fun i => ⟨i, d.columns, .left, List.replicate d.columns 0⟩)
    duration := none }

/-- The per-row processing of the `layout` loop in `Device.get_board`
(src/vestaboard/models.py lines 336-355): blank-pad or truncate the row's
codes to the device's column count and wrap them in a left-aligned Row. -/
def processLayoutRow (d : Device) (i : Nat) (rd : RowData) : Row :=
  let processed := rd.toCells
  let coerced :=
    if processed.length < d.columns then
      processed ++ List.replicate (d.columns - processed.length) 0
    else processed.take d.columns
  ⟨i, d.columns, .left, coerced⟩

/-- The Board `get_board` stores for each 200 payload. For `msgNull` the
source first stores the all-blank board and then hits a `NameError` on the
undefined `layout` (line 320 sits outside the `elif` branch), which the
outer `except` swallows, so the blank board stands. For `msgLayout` the
processed layout rows are stored. For a direct payload the parsed Board is
dimension-stamped, and a parse failure falls back to the blank board. -/
def parsePayload (d : Device) : GetPayload → Board
  | .msgNull => blankBoard d
  | .msgLayout layout =>
      { rows := d.rows
        columns := d.columns
        message := (layout.enum.map (fun p => processLayoutRow d p.1 p.2))
        duration := none }
  | .direct (some b) => stampBoard d b
  | .direct none => blankBoard d

/-- `Device.get_board` from src/vestaboard/models.py with the transport
modelled as a `GetResp`. Every failure path (missing API key, non-200
status, any exception inside the `try`) is caught by the outer
`except Exception: logger.exception(...)`, which only logs — the device
state is returned unchanged. A 200 response stores the parsed board. -/
def Device.get_board (d : Device) (api_key : Option String) (resp : GetResp) : Device :=
  match api_key with
  | none => d
  | some _ =>
      match resp with
      | .failure _ => d
      | .success payload => { d with active_board := some (parsePayload d payload) }

/-- The upstream outcomes `SpotifyInstallable.generate_board`
(src/installables/spotify.py) distinguishes: the lazily-built client is
unavailable; `current_user_playing_track()` returned `None`; it returned a
track with `is_playing == False`; the call raised a `SpotifyException`
(auth/rate error); or a track is playing, carrying the post-`unidecode`
song title, artist names, and the track's duration and progress in ms. -/
inductive SpotifyResp where
  | clientUnavailable
  | nothingPlaying
  | notPlaying
  | apiError
  | playing (song : PyStr) (artists : List PyStr) (duration_ms progress_ms : Int)
deriving DecidableEq, Repr

/-- The soft-failure modes of `generate_board`: the ones the source handles
by returning the placeholder board with a 15000 ms retry. -/
def SpotifyResp.isSoftFailure : SpotifyResp → Bool
  | .clientUnavailable => true
  | .nothingPlaying => true
  | .notPlaying => true
  | .apiError => true
  | .playing _ _ _ _ => false

/-- The `header_line_text` literal of src/installables/spotify.py line 56. -/
def headerLineText : List PyStr :=
  ["GREEN".toList, " ".toList, " ".toList, " ".toList, " ".toList,
   "N".toList, "O".toList, "w".toList, " ".toList, "P".toList, "L".toList,
   "A".toList, "Y".toList, "I".toList, "N".toList, "G".toList, " ".toList,
   " ".toList, " ".toList, " ".toList, " ".toList, "GREEN".toList]

/-- Splits a Python string into the per-character token list
`[char for char in s]`. -/
def charTokens (s : PyStr) : List PyStr :=
  s.map (fun c => [c])

/-- `SpotifyInstallable.generate_board` from src/installables/spotify.py with
the Spotify API modelled as a `SpotifyResp`. Returns `none` when a
`create_row` call would never return (its `pad_line` loops forever);
otherwise `some (board, refresh_ms)`. Every soft-failure mode returns the
header-design board with a 15000 ms retry; the playing mode appends the
centered song and artist rows and a blank bottom row, with
`refresh = duration_ms - progress_ms + 1000`. -/
def generate_board (d : Device) (resp : SpotifyResp) : Option (Board × Int) := do
  let board := d.create_board [] none
  let header_row ← d.create_row 1 (convert_to_character_code headerLineText) .none
  let row0 ← d.create_row 0
    [66, 66, 0, 0, 0, 0, 0, 0, 0, 0, 0, 0, 0, 0, 0, 0, 0, 0, 0, 0, 66, 66] .none
  let row2 ← d.create_row 2
    [0, 0, 0, 0, 0, 0, 0, 0, 0, 0, 0, 0, 0, 0, 0, 0, 0, 0, 0, 0, 0, 0] .none
  let board := { board with message := [row0, header_row, row2] }
  match resp with
  | .clientUnavailable => some (board, 15000)
  | .nothingPlaying => some (board, 15000)
  | .notPlaying => some (board, 15000)
  | .apiError => some (board, 15000)
  | .playing song artists duration_ms progress_ms =>
      let refresh := duration_ms - progress_ms + 1000
      let line4 ← d.create_row 3 (convert_to_character_code (charTokens song)) .center
      let line5 ← d.create_row 4
        (convert_to_character_code (charTokens (List.intercalate ", ".toList artists))) .center
      let line6 ← d.create_row 5 (List.replicate d.columns 0) .none
      some ({ board with message := board.message ++ [line4, line5, line6] }, refresh)

/-- The play-description wrap of
`MLBScoresInstallable.get_live_game_feed` (src/installables/sports/mlb/app.py
lines 393-407): take the text before the first comma; if it fits in 22
characters it is the whole fifth line; otherwise split it into words
(Python `str.split()`: split on whitespace, dropping empty pieces) and
greedily put each word on line 5 when it still fits with a trailing space,
otherwise on line 6. -/
def wrapDescription (last_play_description : PyStr) : PyStr × PyStr :=
  let short_description := last_play_description.splitOnP (fun c => c = ',')
  let head := short_description.headD []
  if head.length ≤ 22 then (head, [])
  else
    let words := (head.splitOnP Char.isWhitespace).filter (fun w => w ≠ [])
    words.foldl
      (fun lines word =>
        if lines.1.length + word.length + 1 ≤ 22 then
          (lines.1 ++ word ++ [' '], lines.2)
        else
          (lines.1, lines.2 ++ word ++ [' ']))
      ([], [])

/-- The Orchestrator state the activation claims touch
(src/orchestrator.py): the registry key set (fixed by
`_register_installables`) and the optional active identifier. -/
structure Orchestrator where
  installables : List String
  active_installable : Option String
deriving DecidableEq, Repr

/-- The registry keys set up by `Orchestrator._register_installables`. -/
def registeredInstallables : List String := ["spotify", "clock", "mlb"]

/-- `Orchestrator.set_active_installable` from src/orchestrator.py: an
unknown name logs an error and returns `False` without touching state; a
registered name (including the currently active one) becomes the active
installable and the call returns `True`. -/
def Orchestrator.set_active_installable (o : Orchestrator) (installable_name : String) :
    Orchestrator × Bool :=
  if installable_name ∈ o.installables then
    ({ o with active_installable := some installable_name }, true)
  else
    (o, false)

/-- Folding an append of one image element over a list is the same as
appending the mapped list to the accumulator (shape of both codec loops in
src/vestaboard/utils.py). -/
theorem tfoldl_append_map {α β : Type} (f : α → β) :
    ∀ (l : List α) (acc : List β),
      l.foldl (fun line v => line ++ [f v]) acc = acc ++ l.map f := by
  intro l
  induction l with
  | nil => simp
  | cons v rest ih => intro acc; simp [List.foldl_cons, ih]

/-- When the line is already at least the target length, the `pad_line` loop
guard is false and the loop exits at once, whatever the alignment. -/
theorem tpadLineFuel_done (a : Align) (L n : Nat) (line : List Int) (h : L ≤ line.length) :
    padLineFuel a L n line = some line := by
  cases n <;> simp [padLineFuel, Nat.not_lt.mpr h]

/-- With alignment `none` and a line shorter than the target, the `pass`
body never changes the list, so the loop guard stays true after any number
of iterations: no amount of fuel makes the loop finish. -/
theorem tpadLineFuel_none (L : Nat) :
    ∀ (n : Nat) (line : List Int), line.length < L → padLineFuel Align.none L n line = none := by
  intro n
  induction n with
  | zero => intro line h; simp [padLineFuel, h]
  | succ n ih => intro line h; simp [padLineFuel, h, padLineStep]; exact ih line h

/-- Left alignment: the loop appends exactly the missing number of trailing
blanks. -/
theorem tpadLineFuel_left (L : Nat) :
    ∀ (n : Nat) (line : List Int), line.length ≤ L → L - line.length ≤ n →
      padLineFuel Align.left L n line = some (line ++ List.replicate (L - line.length) 0) := by
  intro n
  induction n with
  | zero =>
      intro line h1 h2
      have h3 : L = line.length := by omega
      simp [padLineFuel, h3]
  | succ n ih =>
      intro line h1 h2
      by_cases hlt : line.length < L
      · have step : padLineFuel Align.left L (n + 1) line
            = padLineFuel Align.left L n (line ++ [0]) := by
          simp [padLineFuel, hlt, padLineStep]
        rw [step, ih (line ++ [0]) (by simp; omega) (by simp; omega)]
        have hk : L - line.length = (L - (line ++ [(0:Int)]).length) + 1 := by simp; omega
        rw [hk, List.replicate_succ]
        simp
      · have h3 : L = line.length := by omega
        simp [padLineFuel, h3]

/-- Right alignment: the loop inserts exactly the missing number of leading
blanks. -/
theorem tpadLineFuel_right (L : Nat) :
    ∀ (n : Nat) (line : List Int), line.length ≤ L → L - line.length ≤ n →
      padLineFuel Align.right L n line = some (List.replicate (L - line.length) 0 ++ line) := by
  intro n
  induction n with
  | zero =>
      intro line h1 h2
      have h3 : L = line.length := by omega
      simp [padLineFuel, h3]
  | succ n ih =>
      intro line h1 h2
      by_cases hlt : line.length < L
      · have step : padLineFuel Align.right L (n + 1) line
            = padLineFuel Align.right L n (0 :: line) := by
          simp [padLineFuel, hlt, padLineStep]
        rw [step, ih (0 :: line) (by simp; omega) (by simp; omega)]
        have hk : L - line.length = (L - (0 :: line).length) + 1 := by simp; omega
        rw [hk, List.replicate_succ']
        simp
      · have h3 : L = line.length := by omega
        simp [padLineFuel, h3]

/-- Center alignment: the loop surrounds the original line with blanks on
both sides, and the two blank runs together close the deficit exactly. -/
theorem tpadLineFuel_center (L : Nat) :
    ∀ (n : Nat) (line : List Int), line.length ≤ L → L - line.length ≤ n →
      ∃ p q, padLineFuel Align.center L n line
          = some (List.replicate p 0 ++ line ++ List.replicate q 0)
        ∧ p + q = L - line.length := by
  intro n
  induction n with
  | zero =>
      intro line h1 h2
      have h3 : L = line.length := by omega
      exact ⟨0, 0, by simp [padLineFuel, h3], by omega⟩
  | succ n ih =>
      intro line h1 h2
      by_cases hlt : line.length < L
      · by_cases hodd : line.length % 2 = 1
        · have step : padLineFuel Align.center L (n + 1) line
              = padLineFuel Align.center L n (line ++ [0]) := by
            simp [padLineFuel, hlt, padLineStep, hodd]
          obtain ⟨p, q, heq, hsum⟩ := ih (line ++ [0]) (by simp; omega) (by simp; omega)
          refine ⟨p, q + 1, ?_, by simp at hsum; omega⟩
          rw [step, heq]
          simp [List.replicate_succ, List.append_assoc]
        · have step : padLineFuel Align.center L (n + 1) line
              = padLineFuel Align.center L n (0 :: line) := by
            simp [padLineFuel, hlt, padLineStep, hodd]
          obtain ⟨p, q, heq, hsum⟩ := ih (0 :: line) (by simp; omega) (by simp; omega)
          refine ⟨p + 1, q, ?_, by simp at hsum; omega⟩
          rw [step, heq]
          congr 1
          rw [List.replicate_succ']
          simp
      · have h3 : L = line.length := by omega
        exact ⟨0, 0, by simp [padLineFuel, h3], by omega⟩

/-- Claim C1 (code bug): vertical padding is supposed to leave exactly `rows`
rows, but the loop `while len(self.message) <= self.rows` in
`Board.pad_message` (and the identical `while len(board) <= ROWS` in
`padBoard`) only stops once the row count exceeds the declared row count, so
a Board declared 6 rows tall ends up with 7 rows — both from an empty
message and from a one-row message. -/
theorem claim1_board_pad_overshoot :
    (pad_message 6 22 []).length = 7
      ∧ (pad_message 6 22 [⟨0, 22, Align.left, List.replicate 22 5⟩]).length = 7
      ∧ (padBoard []).length = 7 := by
  refine ⟨by simp [pad_message], by simp [pad_message], by simp [padBoard]⟩

/-- Claim C2 (confirmed): on every failing send — missing API credential or
a non-200 transport status — `Device.update_message` leaves `active_board`
exactly as it was before the call and reports the failure by raising; the
stored board is replaced only on a 200 response. -/
theorem claim2_update_failure_keeps_board (d : Device) (b : Board)
    (api_key : Option String) (send : List (List Int) → Nat)
    (h : api_key = none ∨ send (serializeBoard (stampBoard d b)) ≠ 200) :
    (d.update_message b api_key send).1.active_board = d.active_board
      ∧ ∃ e, (d.update_message b api_key send).2 = Except.error e := by
  cases api_key with
  | none => exact ⟨rfl, _, rfl⟩
  | some k =>
      rcases h with h | h
      · exact absurd h (by simp)
      · simp [Device.update_message, h]

/-- Witness for claim C2: a concrete device holding a board, a present API
key and a transport that answers 500 — the stored board survives and the
call errors. -/
theorem claim2_update_failure_keeps_board_witness :
    ((Device.update_message ⟨6, 22, some ⟨6, 22, [], none⟩, "spotify"⟩ ⟨6, 22, [], none⟩
        (some "key") (fun _ => 500)).1.active_board
      = (⟨6, 22, some ⟨6, 22, [], none⟩, "spotify"⟩ : Device).active_board)
      ∧ ∃ e, (Device.update_message ⟨6, 22, some ⟨6, 22, [], none⟩, "spotify"⟩ ⟨6, 22, [], none⟩
          (some "key") (fun _ => 500)).2 = Except.error e :=
  claim2_update_failure_keeps_board _ _ (some "key") (fun _ => 500) (Or.inr (by decide))

/-- The encode loop is the per-token map of `encodeToken`. -/
theorem tconvert_to_map (input : List PyStr) :
    convert_to_character_code input = input.map encodeToken := by
  have h := tfoldl_append_map encodeToken input []
  simpa [convert_to_character_code] using h

/-- The decode loop is the per-code map of `decodeCode`. -/
theorem tconvert_from_map (codes : List Int) :
    convert_from_character_code codes = codes.map decodeCode := by
  have h := tfoldl_append_map decodeCode codes []
  simpa [convert_from_character_code] using h

/-- Claim C3 (amended): the primary codec
`vestaboard.utils.convert_to_character_code` emits exactly one code per
input token — it equals the per-token map, preserves length, and a lookup
miss yields the blank code 0 rather than dropping the position. (The legacy
`transform_functions.convertToCharacterCode` violates the original claim;
see its counterexample.) -/
theorem claim3_encode_preserves_length :
    (∀ input : List PyStr, (convert_to_character_code input).length = input.length)
      ∧ (∀ input : List PyStr, convert_to_character_code input = input.map encodeToken)
      ∧ (∀ v : PyStr, charCodePairs.lookup (pyUpper v) = none → encodeToken v = 0) := by
  refine ⟨fun input => ?_, tconvert_to_map, fun v h => ?_⟩
  · rw [tconvert_to_map]; simp
  · simp [encodeToken, h]

/-- Witness for claim C3: a two-token input (one unknown) keeps length 2,
and the unknown token `~` encodes to blank 0. -/
theorem claim3_encode_preserves_length_witness :
    (convert_to_character_code ["~".toList, "a".toList]).length = 2
      ∧ encodeToken "~".toList = 0 :=
  ⟨claim3_encode_preserves_length.1 ["~".toList, "a".toList],
   claim3_encode_preserves_length.2.2 "~".toList (by decide)⟩

/-- Counterexample for claim C3: the other cited encode function,
`transform_functions.convertToCharacterCode`, drops the unknown token `~`
entirely (its `except KeyError: ... continue` appends nothing), returning an
empty list for a one-token input. -/
theorem claim3_counterexample :
    convertToCharacterCode ["~".toList] = []
      ∧ (["~".toList] : List PyStr).length = 1 := by decide

/-- Claim C4 (confirmed): for left/center/right alignment and a line no
longer than the target, `pad_line` terminates with a line of exactly the
target length, inserting only blanks — trailing for left, leading for
right, split on both sides for center with the odd-append/even-insert step
rule — and padding an already-full line again changes nothing. -/
theorem claim4_row_pad_alignment (L : Nat) (line : List Int) (a : Align)
    (ha : a = Align.left ∨ a = Align.center ∨ a = Align.right)
    (h : line.length ≤ L) :
    ∃ r, pad_line a L line = some r ∧ r.length = L
      ∧ (a = Align.left → r = line ++ List.replicate (L - line.length) 0)
      ∧ (a = Align.right → r = List.replicate (L - line.length) 0 ++ line)
      ∧ (a = Align.center → ∃ p q, r = List.replicate p 0 ++ line ++ List.replicate q 0
            ∧ p + q = L - line.length)
      ∧ (padLineStep Align.center line
            = if line.length % 2 = 1 then line ++ [0] else 0 :: line)
      ∧ pad_line a L r = some r := by
  rcases ha with rfl | rfl | rfl
  · refine ⟨line ++ List.replicate (L - line.length) 0, ?_, by simp; omega, by simp,
      by simp, by simp, rfl, ?_⟩
    · exact tpadLineFuel_left L L line h (by omega)
    · exact tpadLineFuel_done _ _ _ _ (by simp; omega)
  · obtain ⟨p, q, heq, hsum⟩ := tpadLineFuel_center L L line h (by omega)
    refine ⟨List.replicate p 0 ++ line ++ List.replicate q 0, heq, by simp; omega, by simp,
      by simp, by simp; exact ⟨p, q, rfl, hsum⟩, rfl, ?_⟩
    exact tpadLineFuel_done _ _ _ _ (by simp; omega)
  · refine ⟨List.replicate (L - line.length) 0 ++ line, ?_, by simp; omega, by simp,
      by simp, by simp, rfl, ?_⟩
    · exact tpadLineFuel_right L L line h (by omega)
    · exact tpadLineFuel_done _ _ _ _ (by simp; omega)

/-- Witness for claim C4: centering the three-code line `[1, 2, 3]` in a
22-wide row. -/
theorem claim4_row_pad_alignment_witness :
    ∃ r, pad_line Align.center 22 [1, 2, 3] = some r ∧ r.length = 22
      ∧ (Align.center = Align.left → r = [1, 2, 3] ++ List.replicate (22 - 3) 0)
      ∧ (Align.center = Align.right → r = List.replicate (22 - 3) 0 ++ [1, 2, 3])
      ∧ (Align.center = Align.center →
            ∃ p q, r = List.replicate p 0 ++ [1, 2, 3] ++ List.replicate q 0 ∧ p + q = 22 - 3)
      ∧ (padLineStep Align.center [1, 2, 3]
            = if ([1, 2, 3] : List Int).length % 2 = 1 then [1, 2, 3] ++ [0] else 0 :: [1, 2, 3])
      ∧ pad_line Align.center 22 r = some r := by
  have h := claim4_row_pad_alignment 22 [1, 2, 3] Align.center (Or.inr (Or.inl rfl))
    (by decide)
  simpa using h

/-- Claim C5 (code bug): `pad_line` with `align="none"` on a line shorter
than the target never terminates — the loop body is `pass`, so no amount of
fuel finishes the loop — contradicting the claimed total no-op; on a line
already at the target length it does return the row unchanged. -/
theorem claim5_align_none_nonterminating :
    (∀ n : Nat, padLineFuel Align.none 22 n [] = none)
      ∧ pad_line Align.none 22 [] = none
      ∧ pad_line Align.none 22 (List.replicate 22 3) = some (List.replicate 22 3) := by
  refine ⟨fun n => tpadLineFuel_none 22 n [] (by simp), ?_, ?_⟩
  · exact tpadLineFuel_none 22 22 [] (by simp)
  · exact tpadLineFuel_done _ _ _ _ (by simp)

/-- Claim C6 (amended): on a transport-level error (missing credential or a
failing GET), `Device.get_board` swallows the exception after logging and
returns with the device state — in particular `active_board` — exactly as it
was, rather than resetting it to `None` as the original claim states. -/
theorem claim6_get_board_error_keeps_state (d : Device) (api_key : Option String)
    (resp : GetResp) (h : api_key = none ∨ ∃ m, resp = GetResp.failure m) :
    d.get_board api_key resp = d := by
  cases api_key with
  | none => rfl
  | some k =>
      rcases h with h | ⟨m, rfl⟩
      · exact absurd h (by simp)
      · rfl

/-- Witness for claim C6: a concrete device with a stored board and a
failing GET — the whole device state survives. -/
theorem claim6_get_board_error_keeps_state_witness :
    Device.get_board ⟨6, 22, some ⟨6, 22, [], none⟩, "spotify"⟩ (some "key")
      (GetResp.failure "boom") = ⟨6, 22, some ⟨6, 22, [], none⟩, "spotify"⟩ :=
  claim6_get_board_error_keeps_state _ (some "key") (GetResp.failure "boom")
    (Or.inr ⟨"boom", rfl⟩)

/-- Counterexample for claim C6: after a failing GET on a device whose
stored board is present, `active_board` still holds that board — it is not
`None` as the claim requires. -/
theorem claim6_counterexample :
    (Device.get_board ⟨6, 22, some ⟨6, 22, [], none⟩, "spotify"⟩ (some "key")
        (GetResp.failure "HTTP 500")).active_board = some ⟨6, 22, [], none⟩
      ∧ (Device.get_board ⟨6, 22, some ⟨6, 22, [], none⟩, "spotify"⟩ (some "key")
        (GetResp.failure "HTTP 500")).active_board ≠ none := by
  exact ⟨rfl, by decide⟩

/-- Claim C7 (amended): decode∘encode maps every table-form non-color glyph
back to itself (and hence is idempotent on such sequences); a token whose
case-folded lookup misses decodes to the blank token; a code with no known
symbol decodes to the blank token; and color codes decode to the block
placeholder. (Case-foldable tokens such as `a` map to their canonical
uppercase glyph, not to themselves; see the counterexample.) -/
theorem claim7_codec_roundtrip :
    (∀ p ∈ charCodePairs, p.1 ∈ colorNames ∨ decodeCode (encodeToken p.1) = p.1)
      ∧ (∀ s : List PyStr, (∀ t ∈ s, t ∈ charCodePairs.map Prod.fst ∧ t ∉ colorNames) →
            convert_from_character_code (convert_to_character_code s) = s)
      ∧ (∀ t : PyStr, charCodePairs.lookup (pyUpper t) = none →
            decodeCode (encodeToken t) = " ".toList)
      ∧ (∀ c : Int, codeToChar c = none → decodeCode c = " ".toList)
      ∧ (∀ p ∈ charCodePairs, p.1 ∈ colorNames → decodeCode p.2 = "█".toList)
      ∧ (∀ s : List PyStr, (∀ t ∈ s, t ∈ charCodePairs.map Prod.fst ∧ t ∉ colorNames) →
            convert_from_character_code (convert_to_character_code
                (convert_from_character_code (convert_to_character_code s)))
              = convert_from_character_code (convert_to_character_code s)) := by
  have ha : ∀ p ∈ charCodePairs, p.1 ∈ colorNames ∨ decodeCode (encodeToken p.1) = p.1 := by
    decide
  have hb : ∀ s : List PyStr, (∀ t ∈ s, t ∈ charCodePairs.map Prod.fst ∧ t ∉ colorNames) →
      convert_from_character_code (convert_to_character_code s) = s := by
    intro s hs
    rw [tconvert_to_map, tconvert_from_map, List.map_map]
    induction s with
    | nil => simp
    | cons t rest ih =>
        obtain ⟨hmem, hcolor⟩ := hs t (by simp)
        obtain ⟨p, hp, hfst⟩ := List.mem_map.mp hmem
        have hr := (ha p hp).resolve_left (by rw [hfst]; exact hcolor)
        rw [hfst] at hr
        rw [List.map_cons, ih (fun u hu => hs u (by simp [hu]))]
        simp [Function.comp, hr]
  refine ⟨ha, hb, fun t h => ?_, fun c h => ?_, by decide, fun s hs => ?_⟩
  · have h0 : encodeToken t = 0 := by simp [encodeToken, h]
    rw [h0]; decide
  · simp [decodeCode, h]
  · rw [hb s hs, hb s hs]

/-- Witness for claim C7: the canonical glyph sequence `H`, `I` round-trips
to itself, and the unknown token `~` decodes to the blank token. -/
theorem claim7_codec_roundtrip_witness :
    convert_from_character_code (convert_to_character_code ["H".toList, "I".toList])
        = ["H".toList, "I".toList]
      ∧ decodeCode (encodeToken "~".toList) = " ".toList :=
  ⟨claim7_codec_roundtrip.2.1 ["H".toList, "I".toList] (by decide),
   claim7_codec_roundtrip.2.2.1 "~".toList (by decide)⟩

/-- Counterexample for claim C7: the lowercase token `a` is known to the
encoder (it case-folds to code 1, not to blank), yet decode∘encode sends it
to `A`, which is neither the original token nor a blank — so it neither
"round-trips to itself" nor "becomes blank" as the original claim requires
of every token. -/
theorem claim7_counterexample :
    convert_from_character_code (convert_to_character_code ["a".toList]) = ["A".toList]
      ∧ encodeToken "a".toList = 1
      ∧ "A".toList ≠ "a".toList
      ∧ "A".toList ≠ " ".toList := by decide

/-- Claim C8 (amended): on every soft failure (client unavailable, nothing
playing, track paused, Spotify API error) `generate_board` returns without
raising, with a 15000 ms retry delay and with the fixed "NOW PLAYING"
header placeholder board — a board that does not depend on the device's
stored `active_board`, rather than "the prior board" of the original
claim. -/
theorem claim8_soft_failure_placeholder (d : Device) (x : Option Board) (resp : SpotifyResp)
    (hc : d.columns = 22) (h : resp.isSoftFailure = true) :
    ∃ b, generate_board d resp = some (b, 15000)
      ∧ generate_board { d with active_board := x } resp = some (b, 15000) := by
  obtain ⟨rows, columns, ab, ai⟩ := d
  simp only at hc
  subst hc
  cases resp with
  | clientUnavailable => exact ⟨_, rfl, rfl⟩
  | nothingPlaying => exact ⟨_, rfl, rfl⟩
  | notPlaying => exact ⟨_, rfl, rfl⟩
  | apiError => exact ⟨_, rfl, rfl⟩
  | playing song artists duration_ms progress_ms => simp [SpotifyResp.isSoftFailure] at h

/-- Witness for claim C8: a concrete 6×22 device with a stored board, on
"nothing playing". -/
theorem claim8_soft_failure_placeholder_witness :
    ∃ b, generate_board ⟨6, 22, some ⟨6, 22, [], none⟩, "spotify"⟩ SpotifyResp.nothingPlaying
        = some (b, 15000)
      ∧ generate_board
          { (⟨6, 22, some ⟨6, 22, [], none⟩, "spotify"⟩ : Device) with active_board := none }
          SpotifyResp.nothingPlaying = some (b, 15000) :=
  claim8_soft_failure_placeholder ⟨6, 22, some ⟨6, 22, [], none⟩, "spotify"⟩ none
    SpotifyResp.nothingPlaying rfl rfl

/-- Counterexample for claim C8: with a prior stored board, the board
returned on "nothing playing" is not that prior board (it is the fresh
header placeholder), refuting "returns the prior board unchanged". -/
theorem claim8_counterexample :
    (generate_board ⟨6, 22, some ⟨6, 22, [], none⟩, "spotify"⟩
        SpotifyResp.nothingPlaying).map Prod.fst ≠ some ⟨6, 22, [], none⟩ := by
  decide

/-- The greedy fold keeps the first wrapped line within 22 characters
whenever it starts within 22: a word is only appended when the new length
(old length + word length + one trailing space) still fits. -/
theorem twrap_foldl_first_bound :
    ∀ (words : List PyStr) (acc : PyStr × PyStr), acc.1.length ≤ 22 →
      ((words.foldl
        (fun lines word =>
          if lines.1.length + word.length + 1 ≤ 22 then
            (lines.1 ++ word ++ [' '], lines.2)
          else
            (lines.1, lines.2 ++ word ++ [' ']))
        acc).1.length ≤ 22) := by
  intro words
  induction words with
  | nil => intro acc h; simpa using h
  | cons w rest ih =>
      intro acc h
      simp only [List.foldl_cons]
      by_cases hfit : acc.1.length + w.length + 1 ≤ 22
      · simp only [hfit, if_true]
        exact ih _ (by simp; omega)
      · simp only [hfit, if_false]
        exact ih _ h

/-- Claim C9 (amended): the first wrapped play-description line never
exceeds the 22-column width; the second line, however, receives every word
that does not fit on the first and is unbounded (see the counterexample),
so the original two-line bound does not hold. -/
theorem claim9_first_wrap_line_bounded (last_play_description : PyStr) :
    (wrapDescription last_play_description).1.length ≤ 22 := by
  unfold wrapDescription
  dsimp only
  split
  · rename_i hfits
    exact hfits
  · apply twrap_foldl_first_bound
    simp

/-- Counterexample for claim C9: a 46-character description whose overflow
words accumulate to a 26-character second line, exceeding the 22-column
width. -/
theorem claim9_counterexample :
    ¬((wrapDescription "aaaaaaaaaaaaaaaaaaaa bbbbbbbbbbbb cccccccccccc".toList).2.length
        ≤ 22) := by
  decide

/-- Claim C10 (confirmed): `set_active_installable` returns false and leaves
the orchestrator — in particular `active_installable` — unchanged for an
unregistered name, and for a registered name (including the currently
active one) sets `active_installable` to it and returns true. -/
theorem claim10_activate_registry (o : Orchestrator) (name : String) :
    (name ∉ o.installables → o.set_active_installable name = (o, false))
      ∧ (name ∈ o.installables →
          o.set_active_installable name = ({ o with active_installable := some name }, true)) := by
  constructor <;> intro h <;> simp [Orchestrator.set_active_installable, h]

/-- Witness for claim C10: against the registry of
`_register_installables` with `clock` active, activating `unknown` fails
and changes nothing, and re-activating `clock` succeeds. -/
theorem claim10_activate_registry_witness :
    (Orchestrator.set_active_installable ⟨registeredInstallables, some "clock"⟩ "unknown"
        = (⟨registeredInstallables, some "clock"⟩, false))
      ∧ (Orchestrator.set_active_installable ⟨registeredInstallables, some "clock"⟩ "clock"
        = (⟨registeredInstallables, some "clock"⟩, true)) := by
  refine ⟨(claim10_activate_registry _ "unknown").1 (by decide), ?_⟩
  have h := (claim10_activate_registry ⟨registeredInstallables, some "clock"⟩ "clock").2
    (by decide)
  simpa using h
